import Mathlib

/-
Verification development for the ARM_Stacktrace FDIR core (src/src/fdir.c).

The C unwinder is embedded shallowly:
  * memory is a total byte map `Nat → Nat` (each read is truncated to a
    byte with `% 256`, mirroring the `uint8_t` type of the C accesses,
    and byte addresses are reduced `% 2^32`, mirroring 32-bit pointers);
  * `uint32_t` arithmetic is `Nat` arithmetic with explicit `% 2^32`
    at the operations that can wrap;
  * `uint8_t` index arithmetic (the binary-search cursors and the
    unwind-instruction index) is `Nat` arithmetic with explicit `% 256`;
  * the two C loops that need not terminate (the binary search in
    `UnwindNextFrame` and the instruction loop of
    `DecodeCompactModelEntry`) take an explicit fuel argument and
    return `none` when the fuel is exhausted.
-/

namespace Fdir

/-- One reconstructed frame: `call_t` of fdir.h (lr, fp). -/
structure Call where
  lr : Nat
  fp : Nat
deriving DecidableEq, Repr

/-- `callStack_t` of fdir.h: a size and the `calls` array.  The array is
modelled as a total map so that an out-of-bounds store (an index ≥ 20)
is observable in the model. -/
structure CallStack where
  size : Nat
  calls : Nat → Call

/-- `exidxEntry_t` of fdir.h: raw and decoded forms of one exidx row. -/
structure ExidxEntry where
  exidx_entry : Nat
  exidx_fn : Nat
  decoded_entry : Nat
  decoded_fn : Nat
deriving DecidableEq, Repr

/-- Pointwise update of a `Nat`-indexed map (an array store). -/
def upd (f : Nat → Call) (i : Nat) (v : Call) : Nat → Call :=
  fun j => if j = i then v else f j

/-- `GetWord` (fdir.c:456): little-endian assembly of the four bytes at
`sec + offset`. -/
def GetWord (mem : Nat → Nat) (sec offset : Nat) : Nat :=
  let base := (sec + offset) % 2 ^ 32
  (mem base % 256)
    ||| ((mem ((base + 1) % 2 ^ 32) % 256) <<< 8)
    ||| ((mem ((base + 2) % 2 ^ 32) % 256) <<< 16)
    ||| ((mem ((base + 3) % 2 ^ 32) % 256) <<< 24)

/-- `DecodePrel31` (fdir.c:431): mask to 31 bits, use bit 30 as the sign
bit (the C code ors the `uint32_t` with `~(uint64_t)0x7fffffff` and the
conversion back to `uint32_t` keeps exactly bit 31), then add the load
location with `uint32_t` wrap-around. -/
def DecodePrel31 (word loc : Nat) : Nat :=
  let offset := word &&& 0x7fffffff
  let offset := if offset &&& 0x40000000 ≠ 0 then offset ||| 0x80000000 else offset
  (offset + loc) % 2 ^ 32

/-- `GetExidxEntry` (fdir.c:402): read the two words of the 8-byte row at
`sec + offset`; the first decodes to the function address (or 0 when its
bit 31 is set), the second to the descriptor pointer (kept raw when its
bit 31 is set). -/
def GetExidxEntry (mem : Nat → Nat) (sec offset : Nat) : ExidxEntry :=
  let exidx_fn := GetWord mem sec offset
  let exidx_entry := GetWord mem sec (offset + 4)
  { exidx_fn := exidx_fn
    exidx_entry := exidx_entry
    decoded_fn :=
      if exidx_fn &&& 0x80000000 ≠ 0 then 0
      else DecodePrel31 exidx_fn ((sec + offset) % 2 ^ 32)
    decoded_entry :=
      if exidx_entry &&& 0x80000000 ≠ 0 then exidx_entry
      else DecodePrel31 exidx_entry ((sec + offset + 4) % 2 ^ 32) }

/-- `GetInstruction` (fdir.c:377): fetch one unwind-instruction byte.
`offset` is the `uint8_t` byte index; indices ≥ 4 re-read the enclosing
word from memory at `entry + 4*(offset/4)`. -/
def GetInstruction (mem : Nat → Nat) (entry word offset : Nat) : Nat :=
  let new_word := if 4 ≤ offset then GetWord mem entry (4 * (offset / 4)) else word
  (new_word >>> (24 - offset % 4 * 8)) &&& 0xff

/-- The binary-search loop of `UnwindNextFrame` (fdir.c:161-170).
`low`/`high` are `uint8_t` cursors: `mid + 1` and `mid - 1` wrap
modulo 256 exactly as in C.  `entry` threads the last probed row (the C
variable is assigned on every iteration and read after the loop).
`none` means the fuel ran out (the C loop would still be running). -/
def searchLoop (mem : Nat → Nat) (sec target : Nat) :
    Nat → Nat → ExidxEntry → Nat → Option ExidxEntry
  | _, _, _, 0 => none
  | low, high, entry, fuel + 1 =>
    if low ≤ high then
      let mid := low + (high - low) / 2
      let e := GetExidxEntry mem sec (8 * mid)
      if e.decoded_fn < target then
        searchLoop mem sec target ((mid + 1) % 256) high e fuel
      else
        searchLoop mem sec target low ((mid + 255) % 256) e fuel
    else some entry

/-- One pass through the big `if`-ladder of `DecodeCompactModelEntry`
(fdir.c:313-362), given the two fetched instruction bytes and the
current `instr_index`.  Returns the updated `new_fp` and whether the
branch consumed a second byte (the branches that execute `instr_index++`
before the loop-final increment).  The two branches that change the
virtual stack pointer are `00xxxxxx` (`new_fp += ((i1 & 0x3f) << 2) + 4`),
`01xxxxxx` (`new_fp -= ((i1 & 0x3f) << 2) - 4`, written below as
`new_fp + 4 - ((i1 & 0x3f) << 2)` modulo 2^32, which is what the C
`uint32_t` arithmetic computes), and `10110010` (`new_fp += 0x204 +
(i2 << 2)`). -/
def uwStep (idx i1 i2 fp : Nat) : Nat × Bool :=
  if i1 &&& 0xc0 = 0x00 then (((fp + ((i1 &&& 0x3f) <<< 2) + 4) % 2 ^ 32), false)
  else if i1 &&& 0xc0 = 0x40 then (((fp + 4 + 2 ^ 32 - ((i1 &&& 0x3f) <<< 2)) % 2 ^ 32), false)
  else if 1 < idx ∧ i1 = 0x80 ∧ i2 = 0x00 then (fp, true)
  else if 1 < idx ∧ i1 &&& 0xf0 = 0x80 then (fp, true)
  else if i1 = 0x9d then (fp, false)
  else if i1 = 0x9f then (fp, false)
  else if i1 &&& 0xf0 = 0x90 then (fp, false)
  else if i1 &&& 0xf8 = 0xa0 then (fp, false)
  else if i1 &&& 0xf8 = 0xa8 then (fp, false)
  else if i1 = 0xb0 then (fp, false)
  else if 1 < idx ∧ i1 = 0xb1 ∧ i2 = 0x00 then (fp, true)
  else if 1 < idx ∧ i1 = 0xb1 ∧ i2 &&& 0xf0 = 0x00 then (fp, true)
  else if 1 < idx ∧ i1 = 0xb1 then (fp, true)
  else if 1 < idx ∧ i1 = 0xb2 then (((fp + 0x204 + (i2 <<< 2)) % 2 ^ 32), true)
  else if 1 < idx ∧ i1 = 0xb3 then (fp, true)
  else if i1 = 0xb4 then (fp, false)
  else if i1 &&& 0xf8 = 0xb8 then (fp, false)
  else if i1 &&& 0xf8 = 0xc0 then (fp, false)
  else if 1 < idx ∧ i1 = 0xc6 then (fp, true)
  else if 1 < idx ∧ i1 = 0xc7 ∧ i2 = 0x00 then (fp, true)
  else if 1 < idx ∧ i1 = 0xc7 ∧ i2 &&& 0xf0 = 0x00 then (fp, true)
  else if 1 < idx ∧ i1 = 0xc7 then (fp, true)
  else if 1 < idx ∧ i1 = 0xc8 then (fp, true)
  else if 1 < idx ∧ i1 = 0xc9 then (fp, true)
  else if i1 &&& 0xf8 = 0xc8 then (fp, false)
  else if i1 &&& 0xf8 = 0xd0 then (fp, false)
  else if i1 &&& 0xc0 = 0xc0 then (fp, false)
  else (fp, false)

/-- The `while (instr_index < instr_count)` loop of
`DecodeCompactModelEntry` (fdir.c:307-365).  State: the `uint8_t`
`instr_index`, the two instruction registers `instr1`/`instr2` (both
initialised to 0 and refetched under the same conditions as in C:
`instr1` when `instr_index < instr_count`, `instr2` when
`instr_index < instr_count - 1`, at byte offsets `instr_index + 2` and
`instr_index + 3`, each a `uint8_t` argument, hence `% 256`), and
`new_fp`.  The index update is `instr_index + 1`, or `instr_index + 2`
for the two-byte branches, again as a `uint8_t` (`% 256`).  `none` means
the fuel ran out before the loop condition failed. -/
def DecodeLoop (mem : Nat → Nat) (entry word count : Nat) :
    Nat → Nat → Nat → Nat → Nat → Option Nat
  | 0, idx, _, _, fp => if idx < count then none else some fp
  | fuel + 1, idx, i1, i2, fp =>
    if idx < count then
      let i1 := if idx < count then GetInstruction mem entry word ((idx + 2) % 256) else i1
      let i2 := if idx < count - 1 then GetInstruction mem entry word ((idx + 3) % 256) else i2
      let r := uwStep idx i1 i2 fp
      DecodeLoop mem entry word count fuel
        ((idx + (if r.2 then 2 else 1)) % 256) i1 i2 r.1
    else some fp

/-- `DecodeCompactModelEntry` (fdir.c:298): run the instruction loop.
Fuel `count` iterations always suffice when the loop terminates at all
(see `decodeLoop_bounded`); the `getD fp` default is unreachable for the
counts `DecodeFrame` passes. -/
def DecodeCompactModelEntry (mem : Nat → Nat) (entry word fp count : Nat) : Nat :=
  (DecodeLoop mem entry word count count 0 0 0 fp).getD fp

/-- `DecodeFrame` (fdir.c:229): mask the descriptor word, dispatch on
the personality index in bits 27-24 (`(entry >> 24) & 0xf`); SU16 runs
3 instruction bytes, LU16/LU32 run `2 + 4*N` where `N = (word >> 16) & 0xff`
(the count is passed as a `uint8_t`, hence `% 256`); any other index
leaves `fp` unchanged. -/
def DecodeFrame (mem : Nat → Nat) (entry decoded_entry fp : Nat) : Nat :=
  let word := entry &&& 0xffffff
  let instr_count := (word >>> 16) &&& 0xff
  match (entry >>> 24) &&& 0xf with
  | 0 => DecodeCompactModelEntry mem decoded_entry word fp 3
  | 1 => DecodeCompactModelEntry mem decoded_entry word fp ((2 + 4 * instr_count) % 256)
  | 2 => DecodeCompactModelEntry mem decoded_entry word fp ((2 + 4 * instr_count) % 256)
  | _ => fp

/-- Number of exidx rows, `(&__exidx_end - &__exidx_start) / 2`
(fdir.c:139): a `uint32_t*` difference (byte distance / 4) divided by 2,
stored in a `uint8_t`. -/
def entriesCount (s e : Nat) : Nat :=
  ((e - s) / 4 / 2) % 256

/-- `UnwindNextFrame` (fdir.c:134): binary-search the exidx for the
current `lr`, snap `calls[size].lr` to the found row's `decoded_fn`,
increment `size` (a `uint32_t`), then dispatch: CANTUNWIND writes the
`0xffffffff` sentinel pair into `calls[size]`; a bit-31 descriptor (or an
out-of-line descriptor whose first extab word has bit 31) decodes the
frame and writes `{fp = *new_fp, lr = *(new_fp+4) - 1}` into
`calls[size]`; an out-of-line descriptor without bit 31 writes nothing
further.  `e0` is the (uninitialised) initial value of the C local
`entry`; `none` propagates search-fuel exhaustion. -/
def UnwindNextFrame (mem : Nat → Nat) (s e : Nat) (e0 : ExidxEntry) (sf : Nat)
    (cs : CallStack) : Option CallStack :=
  let fp := (cs.calls cs.size).fp
  match searchLoop mem s ((cs.calls cs.size).lr) 0 ((entriesCount s e + 255) % 256) e0 sf with
  | none => none
  | some entry =>
    let cs1 : CallStack :=
      { cs with calls := upd cs.calls cs.size ⟨entry.decoded_fn, (cs.calls cs.size).fp⟩ }
    let cs2 : CallStack := { cs1 with size := (cs1.size + 1) % 2 ^ 32 }
    if entry.exidx_entry = 1 then
      some { cs2 with calls := upd cs2.calls cs2.size ⟨0xffffffff, 0xffffffff⟩ }
    else if entry.exidx_entry &&& 0x80000000 ≠ 0 then
      let new_fp := DecodeFrame mem entry.exidx_entry entry.decoded_entry fp
      let caller : Call := ⟨(GetWord mem new_fp 4 + 2 ^ 32 - 1) % 2 ^ 32, GetWord mem new_fp 0⟩
      some { cs2 with calls := upd cs2.calls cs2.size caller }
    else
      let extab_entry := GetWord mem entry.decoded_entry 0
      if extab_entry &&& 0x80000000 ≠ 0 then
        let new_fp := DecodeFrame mem extab_entry entry.decoded_entry fp
        let caller : Call := ⟨(GetWord mem new_fp 4 + 2 ^ 32 - 1) % 2 ^ 32, GetWord mem new_fp 0⟩
        some { cs2 with calls := upd cs2.calls cs2.size caller }
      else some cs2

/-- The `while` loop of `UnwindStack` (fdir.c:121-125): iterate
`UnwindNextFrame` while `size < CALL_STACK_SIZE (20)` and
`calls[size].lr != 0xffffffff`.  The outer fuel only covers the case
where a nested binary search diverges; the loop itself advances `size`
on every successful iteration. -/
def UnwindLoop (mem : Nat → Nat) (s e : Nat) (e0 : ExidxEntry) (sf : Nat) :
    Nat → CallStack → Option CallStack
  | 0, _ => none
  | fuel + 1, cs =>
    if cs.size < 20 ∧ (cs.calls cs.size).lr ≠ 0xffffffff then
      match UnwindNextFrame mem s e e0 sf cs with
      | none => none
      | some cs' => UnwindLoop mem s e e0 sf fuel cs'
    else some cs

/-- `UnwindStack` (fdir.c:107): reset `size` to 0, seed `calls[0]` with
the captured `{lr, fp}` pair, then run the unwind loop.  (The inline
`asm` that scribbles the machine `lr` register has no effect on the
modelled state.) -/
def UnwindStack (mem : Nat → Nat) (s e : Nat) (e0 : ExidxEntry) (seed : Call)
    (sf lf : Nat) (cs0 : CallStack) : Option CallStack :=
  UnwindLoop mem s e e0 sf lf { size := 0, calls := upd cs0.calls 0 seed }

/-- The 31-bit sign extension of spec §4.2: mask to 31 bits and use bit
30 (`0x40000000`) as the sign bit of the masked value. -/
def prel31SignExtend (word : Nat) : Int :=
  let m := word &&& 0x7fffffff
  if m &&& 0x40000000 ≠ 0 then (m : Int) - 2 ^ 31 else (m : Int)

/-- The prel31 decoding formula of spec §4.2 / §8.1:
`(sign_extend_31_to_32(word & 0x7FFFFFFF) + location) mod 2^32`. -/
def prel31Spec (word loc : Nat) : Nat :=
  ((prel31SignExtend word + loc) % 2 ^ 32).toNat

/-- Modelled from the spec: the unwind loop of the two-argument
`UnwindStack(call_stack, seed)` described in spec §4.6 — the routine the
UsageFault handler of the newer FDIR generation calls
(`UnwindStack(&(debug_info.call_stack), last_call)`); only that caller,
not the routine's source, is in the repository.  Spec §4.6 steps:
1. stop when `size ≥ CALL_STACK_MAX_SIZE` (20);
2. stop when the current `lr = 0xFFFFFFFF` (terminal sentinel) or the
   current `fp = 0x07070707` (corruption guard);
3-4. locate the entry for `calls[size].lr` and overwrite that `lr` with
   the entry's `decoded_fn`;
5. increment `size`;
6. dispatch: CANTUNWIND (`exidx_entry = 0x1`) appends the terminal
   sentinel pair; every other descriptor shape produces some caller pair
   from the entry and the previous frame pointer — the table locator
   (`find`, §4.5) and the descriptor decoding (`dec`, §4.4/§4.6) are
   parameters, so theorems about this loop hold for every locator and
   every decoder. -/
def unwindSpecLoop (find : Nat → ExidxEntry) (dec : ExidxEntry → Nat → Call)
    (cs : CallStack) : CallStack :=
  if 20 ≤ cs.size then cs
  else if (cs.calls cs.size).lr = 0xffffffff ∨ (cs.calls cs.size).fp = 0x07070707 then cs
  else
    let entry := find ((cs.calls cs.size).lr)
    let fp := (cs.calls cs.size).fp
    let calls1 := upd cs.calls cs.size ⟨entry.decoded_fn, fp⟩
    let calls2 :=
      if entry.exidx_entry = 1 then upd calls1 (cs.size + 1) ⟨0xffffffff, 0xffffffff⟩
      else upd calls1 (cs.size + 1) (dec entry fp)
    unwindSpecLoop find dec ⟨cs.size + 1, calls2⟩
termination_by 20 - cs.size
decreasing_by simp_wf; omega

/-- Little-endian byte image of one 32-bit word at address `a`. -/
def putWord (a w : Nat) : List (Nat × Nat) :=
  [(a, w % 256), (a + 1, w >>> 8 % 256), (a + 2, w >>> 16 % 256), (a + 3, w >>> 24 % 256)]

/-- A concrete memory: association list of byte addresses with a default
byte everywhere else. -/
def memOf (l : List (Nat × Nat)) (dflt : Nat) : Nat → Nat :=
  fun a => (l.lookup a).getD dflt

/-- Byte image of a list of `(address, word)` pairs. -/
def wordImage (rows : List (Nat × Nat)) : List (Nat × Nat) :=
  (rows.map fun p => putWord p.1 p.2).flatten

/-- Memory image A: a well-formed sorted exidx at `0x10..0x2f` with four
rows decoding to function addresses `0x100, 0x200, 0x300, 0x400`
(first words are prel31 offsets relative to each row's address), all
four second words `0x1` (CANTUNWIND). -/
def memA : Nat → Nat :=
  memOf (wordImage
    [(0x10, 0xf0), (0x14, 1),
     (0x18, 0x1e8), (0x1c, 1),
     (0x20, 0x2e0), (0x24, 1),
     (0x28, 0x3d8), (0x2c, 1)]) 0

/-- Memory image for the depth-cap run: a single exidx row at
`0x10..0x17` whose first word has bit 31 set (so `decoded_fn = 0`, and
the search always ends on it in one probe) and whose second word
`0x83000000` is an inline compact descriptor with the unsupported
personality index 3 (so `DecodeFrame` returns `fp` unchanged).  Every
other byte reads `0x10`, so every stacked word reads `0x10101010` and
the recovered `lr` is always `0x1010100f ≠ 0xffffffff`: the unwind only
stops at the depth cap. -/
def memDeep : Nat → Nat :=
  memOf (wordImage [(0x10, 0x80000000), (0x14, 0x83000000)]) 0x10

/-- Memory image for the two-run comparison: a 2-row exidx at
`0x10..0x1f` (`decoded_fn` 0x500 and 0x100), one extra row at `0x20`
(`decoded_fn` 0x900, second word CANTUNWIND) that sits just past
`__exidx_end` but is reachable by the search's `uint8_t` wrap-around,
and steering rows with huge `decoded_fn` (`0x70000000` prel31 words) at
the probe indices 3, 7, 15, 31, 63, 127 the wrapped search visits.
Row 1's second word (4) is a prel31 pointer to an extab word without
bit 31 — the unsupported-personality path, which writes nothing into
the new slot. -/
def memTwo : Nat → Nat :=
  memOf (wordImage
    [(0x10, 0x4f0), (0x14, 1),
     (0x18, 0xe8), (0x1c, 4),
     (0x20, 0x8e0), (0x24, 1),
     (0x28, 0x70000000),
     (0x48, 0x70000000),
     (0x88, 0x70000000),
     (0x108, 0x70000000),
     (0x208, 0x70000000),
     (0x408, 0x70000000)]) 0

/-- Memory image with an exidx row at 0 whose first word has bit 31 set
(malformed per EHABI). -/
def memMalformed : Nat → Nat :=
  memOf (wordImage [(0, 0x80000000), (4, 1)]) 0

/-- The all-zero call stack used as the initial buffer of the concrete
runs. -/
def csZero : CallStack :=
  ⟨0, fun _ => ⟨0, 0⟩⟩

/-- Initial call-stack buffer for the two-run comparison: slot 1 holds
the stale value `{lr = 0x200, fp = 0}` that the first run's guard reads. -/
def csTwo : CallStack :=
  ⟨0, fun i => if i = 1 then ⟨0x200, 0⟩ else ⟨0, 0⟩⟩

/-- A call stack whose current slot holds the return address `0x250`. -/
def csA250 : CallStack :=
  ⟨0, fun _ => ⟨0x250, 7⟩⟩

/-- C1: the binary search of `UnwindNextFrame` run over the sorted
4-row table of `memA` (function addresses 0x100, 0x200, 0x300, 0x400)
with target 0x250.  The greatest `decoded_fn ≤ 0x250` is 0x200 (row 1),
but the search returns the last row it probed — row 2, whose
`decoded_fn = 0x300` exceeds the target.  This refutes the claim that
the search selects the entry with the greatest `decoded_fn` less than
or equal to the target. -/
theorem c1_search_selects_entry_above_target :
    searchLoop memA 0x10 0x250 0 3 ⟨0, 0, 0, 0⟩ 32 = some (GetExidxEntry memA 0x10 16)
      ∧ (GetExidxEntry memA 0x10 16).decoded_fn = 0x300
      ∧ (GetExidxEntry memA 0x10 8).decoded_fn = 0x200
      ∧ 0x200 ≤ 0x250 ∧ 0x250 < 0x300 := by
  decide

/-- C2: a run of `UnwindStack` on `memDeep` (an unwind chain deeper
than the 20-entry cap) ends with `size = 20` but has stored a caller
pair into `calls[20]` — one element past the end of the
`calls[0..19]` array of `callStack_t` — because `UnwindNextFrame`
increments `size` to 20 before writing `LAST_CALL`. -/
theorem c2_unwind_writes_slot20 :
    (UnwindStack memDeep 0x10 0x18 ⟨0, 0, 0, 0⟩ ⟨0x77, 0x5000⟩ 4 25 csZero).map
        (fun cs => (cs.size, cs.calls 20)) = some (20, ⟨0x1010100f, 0x10101010⟩)
      ∧ csZero.calls 20 = ⟨0, 0⟩
      ∧ (⟨0x1010100f, 0x10101010⟩ : Call) ≠ (⟨0, 0⟩ : Call) := by
  decide

/-- C3: processing the single unwind-instruction byte `0x40`
(pattern `01xxxxxx` with `xxxxxx = 0`) from a virtual stack pointer of
100.  The claim (and the EHABI) requires `vsp -= (0 << 2) + 4`, i.e.
96; the code computes `new_fp -= ((0 << 2) - 4)`, i.e. 104 — the
virtual stack pointer moves up by 4 instead of down by 4. -/
theorem c3_opcode40_increments_vsp :
    GetInstruction (fun _ => 0) 0 0x4000 2 = 0x40
      ∧ DecodeCompactModelEntry (fun _ => 0) 0 0x4000 100 1 = 104
      ∧ (104 : Nat) ≠ 96 := by
  decide

/-- C6: an SU16 descriptor whose first word is `0x803f0000`
(personality 0; bits 23-16 hold the instruction byte `0x3f`, bits 15-8
and 7-0 hold `0x00`), decoded from address 0x100 over all-zero memory,
starting at `vsp = 1000`.  If the three executed bytes were bits 23-16,
15-8, 7-0 (as the claim states) the result would be
`1000 + ((0x3f << 2) + 4) + 4 + 4 = 1264`; the code instead fetches
byte offsets 2, 3 and 4 — bits 15-8, bits 7-0, and then bits 31-24 of
the word at `entry_ptr + 4` — executing `0x00, 0x00, 0x00` for a result
of 1012.  The first instruction byte is taken from byte offset 2, not
offset 1. -/
theorem c6_su16_skips_first_instruction_byte :
    DecodeFrame (fun _ => 0) 0x803f0000 0x100 1000 = 1012
      ∧ GetInstruction (fun _ => 0) 0x100 0x3f0000 2 = 0x00
      ∧ (0x3f0000 >>> 16) &&& 0xff = 0x3f
      ∧ (1012 : Nat) ≠ 1264 := by
  decide

/-- C8: running `UnwindStack` twice, from the same seed
`{lr = 0x600, fp = 0}` over the same immutable memory image `memTwo`,
the second run started on the call-stack buffer the first run left
behind.  The first run's second frame resolves the stale slot value
`0x200` to the row with `decoded_fn = 0x900`; the second run finds
`0x900` there (written by the first run, whose unsupported-personality
first frame never rewrote the slot it had read) and resolves it to
`0x100`.  The two runs publish different `calls[1]` contents, refuting
idempotence. -/
theorem c8_second_run_differs :
    (UnwindStack memTwo 0x10 0x20 ⟨0, 0, 0, 0⟩ ⟨0x600, 0⟩ 32 25 csTwo).map
        (fun cs => cs.calls 1) = some ⟨0x900, 0⟩
      ∧ ((UnwindStack memTwo 0x10 0x20 ⟨0, 0, 0, 0⟩ ⟨0x600, 0⟩ 32 25 csTwo).bind
          (UnwindStack memTwo 0x10 0x20 ⟨0, 0, 0, 0⟩ ⟨0x600, 0⟩ 32 25)).map
        (fun cs => cs.calls 1) = some ⟨0x100, 0⟩
      ∧ (⟨0x900, 0⟩ : Call) ≠ (⟨0x100, 0⟩ : Call) := by
  decide

/-- Auxiliary: a number below `2^31` ored with `2^31` is the same as
adding `2^31` (the bit is free). -/
theorem lor_two_pow_31 {m : Nat} (h : m < 2 ^ 31) : m ||| 2 ^ 31 = m + 2 ^ 31 := by
  apply Nat.eq_of_testBit_eq
  intro k
  rcases lt_trichotomy k 31 with hk | hk | hk
  · rw [Nat.testBit_lor, Nat.add_comm, Nat.testBit_two_pow_add_gt hk,
      Nat.testBit_two_pow_of_ne (Nat.ne_of_gt hk)]
    simp
  · subst hk
    rw [Nat.testBit_lor, Nat.add_comm, Nat.testBit_two_pow_add_eq,
      Nat.testBit_lt_two_pow h, Nat.testBit_two_pow_self]
    simp
  · have hk2 : (2 : Nat) ^ 32 ≤ 2 ^ k := Nat.pow_le_pow_right (by norm_num) (by omega)
    have h2 : m + 2 ^ 31 < 2 ^ k := by
      have : m + 2 ^ 31 < 2 ^ 32 := by norm_num at h ⊢; omega
      omega
    have h3 : m < 2 ^ k := by omega
    rw [Nat.testBit_lor, Nat.testBit_lt_two_pow h2, Nat.testBit_lt_two_pow h3,
      Nat.testBit_two_pow_of_ne (by omega)]
    simp

/-- C4: whenever the binary search of `UnwindNextFrame` returns an entry
whose raw second word is `0x1` (`EXIDX_CANTUNWIND`), the frame step
writes the terminal pair `{lr = 0xffffffff, fp = 0xffffffff}` into the
current slot `calls[size]` (after the increment), and the `UnwindStack`
loop guard then fails, so the loop performs no further iterations. -/
theorem c4_cantunwind_writes_sentinel_and_stops
    (mem : Nat → Nat) (s e : Nat) (e0 entry : ExidxEntry) (sf : Nat) (cs : CallStack)
    (hs : searchLoop mem s ((cs.calls cs.size).lr) 0 ((entriesCount s e + 255) % 256) e0 sf
      = some entry)
    (hc : entry.exidx_entry = 1) :
    ∃ cs', UnwindNextFrame mem s e e0 sf cs = some cs'
      ∧ cs'.size = (cs.size + 1) % 2 ^ 32
      ∧ cs'.calls cs'.size = ⟨0xffffffff, 0xffffffff⟩
      ∧ ∀ f, UnwindLoop mem s e e0 sf (f + 1) cs' = some cs' := by
  refine ⟨⟨(cs.size + 1) % 2 ^ 32,
    upd (upd cs.calls cs.size ⟨entry.decoded_fn, (cs.calls cs.size).fp⟩)
      ((cs.size + 1) % 2 ^ 32) ⟨0xffffffff, 0xffffffff⟩⟩, ?_, rfl, ?_, ?_⟩
  · unfold UnwindNextFrame
    rw [hs]
    simp [hc]
  · simp [upd]
  · intro f
    have hlr : (upd (upd cs.calls cs.size ⟨entry.decoded_fn, (cs.calls cs.size).fp⟩)
        ((cs.size + 1) % 2 ^ 32) ⟨0xffffffff, 0xffffffff⟩) ((cs.size + 1) % 2 ^ 32)
        = ⟨0xffffffff, 0xffffffff⟩ := by
      simp [upd]
    simp only [UnwindLoop, hlr]
    rw [if_neg]
    simp

/-- C5 (spec-modelled loop): once the current call's frame pointer is
the corruption-guard sentinel `0x07070707`, the spec's unwind loop
stops at once — it unwinds no further frame and leaves the call stack
unchanged — whatever table locator and descriptor decoder are in use. -/
theorem c5_corruption_guard_stops (find : Nat → ExidxEntry) (dec : ExidxEntry → Nat → Call)
    (cs : CallStack) (h : (cs.calls cs.size).fp = 0x07070707) :
    unwindSpecLoop find dec cs = cs := by
  unfold unwindSpecLoop
  split
  · rfl
  · rw [if_pos (Or.inr h)]

/-- C7: for every 32-bit `word` and `location`, `DecodePrel31` computes
exactly `(sign_extend_31_to_32(word & 0x7FFFFFFF) + location) mod 2^32`
with the sign taken from bit 30 of the masked value. -/
theorem c7_decode_prel31_matches_spec (word loc : Nat)
    (hw : word < 2 ^ 32) (hl : loc < 2 ^ 32) :
    DecodePrel31 word loc = prel31Spec word loc := by
  simp only [DecodePrel31, prel31Spec, prel31SignExtend]
  have hmlt : word &&& 0x7fffffff < 2 ^ 31 := by
    have := Nat.and_le_right (n := word) (m := 0x7fffffff)
    omega
  by_cases hbit : word &&& 0x7fffffff &&& 0x40000000 ≠ 0
  · rw [if_pos hbit, if_pos hbit,
      show (0x80000000 : Nat) = 2 ^ 31 from by norm_num, lor_two_pow_31 hmlt]
    omega
  · rw [if_neg hbit, if_neg hbit]
    omega

/-- C9 (amended): for every `instr_count ≤ 254` — which covers every
count `DecodeFrame` can pass (3 for SU16 and the even value
`(2 + 4*N) mod 256` for LU16/LU32) — the decoding loop terminates
within `instr_count` iterations: every iteration advances the
`uint8_t` `instr_index` by 1 or 2 without wrap-around, so fuel equal to
`instr_count` is never exhausted. -/
theorem c9_decode_loop_bounded (mem : Nat → Nat) (entry word fp count : Nat)
    (hc : count ≤ 254) :
    (DecodeLoop mem entry word count count 0 0 0 fp).isSome := by
  suffices h : ∀ fuel idx i1 i2 fp, count ≤ idx + fuel →
      (DecodeLoop mem entry word count fuel idx i1 i2 fp).isSome by
    exact h count 0 0 0 fp (by omega)
  intro fuel
  induction fuel with
  | zero =>
    intro idx i1 i2 fp h
    have hni : ¬ idx < count := by omega
    simp [DecodeLoop, hni]
  | succ n ih =>
    intro idx i1 i2 fp h
    by_cases hidx : idx < count
    · simp only [DecodeLoop, if_pos hidx]
      have hbump : ∀ b : Bool, (idx + (if b = true then 2 else 1)) % 256
          = idx + (if b = true then 2 else 1) := by
        intro b; cases b <;> simp <;> omega
      have hle : ∀ b : Bool, count ≤ idx + (if b = true then 2 else 1) + n := by
        intro b; cases b <;> simp <;> omega
      rw [hbump]
      exact ih _ _ _ _ (hle _)
    · simp [DecodeLoop, hidx]

/-- C10: when the first word of an exidx row has bit 31 set (malformed
per EHABI), `GetExidxEntry` signals no error: it returns the row with
`decoded_fn = 0`, and in the binary search's comparison that row
behaves exactly like a function at address 0. -/
theorem c10_bit31_set_yields_fn_zero (mem : Nat → Nat) (sec offset : Nat)
    (h : GetWord mem sec offset &&& 0x80000000 ≠ 0) :
    (GetExidxEntry mem sec offset).decoded_fn = 0
      ∧ ∀ target, ((GetExidxEntry mem sec offset).decoded_fn < target ↔ 0 < target) := by
  constructor
  · simp [GetExidxEntry, h]
  · intro target
    simp [GetExidxEntry, h]

set_option maxRecDepth 8000 in
/-- C9 counterexample: with `instr_count = 255` (a legal `uint8_t`
argument), memory full of `0xb2` bytes and descriptor word
`0xb2b2b2b2`, the decoding loop has still not returned after 255
iterations: at `instr_index = 254` the two-byte `0xb2` branch bumps the
`uint8_t` index to 256 ≡ 0 and the loop starts over.  This refutes
the claim that the loop returns after at most `instr_count`
iterations for every input. -/
theorem c9_count255_unbounded :
    DecodeLoop (fun _ => 0xb2) 0 0xb2b2b2b2 255 255 0 0 0 0 = none := by
  decide

end Fdir

namespace Fdir

/-- Witness for C4 at a concrete input: on `memA` with current return
address 0x250 the search ends on the CANTUNWIND row at byte offset 16,
and the conclusions of `c4_cantunwind_writes_sentinel_and_stops` hold. -/
theorem c4_cantunwind_witness :
    (searchLoop memA 0x10 ((csA250.calls csA250.size).lr) 0
        ((entriesCount 0x10 0x30 + 255) % 256) ⟨0, 0, 0, 0⟩ 32
      = some (GetExidxEntry memA 0x10 16))
    ∧ (GetExidxEntry memA 0x10 16).exidx_entry = 1
    ∧ ∃ cs', UnwindNextFrame memA 0x10 0x30 ⟨0, 0, 0, 0⟩ 32 csA250 = some cs'
        ∧ cs'.size = (csA250.size + 1) % 2 ^ 32
        ∧ cs'.calls cs'.size = ⟨0xffffffff, 0xffffffff⟩
        ∧ ∀ f, UnwindLoop memA 0x10 0x30 ⟨0, 0, 0, 0⟩ 32 (f + 1) cs' = some cs' :=
  ⟨by decide, by decide,
    c4_cantunwind_writes_sentinel_and_stops memA 0x10 0x30 ⟨0, 0, 0, 0⟩
      (GetExidxEntry memA 0x10 16) 32 csA250 (by decide) (by decide)⟩

/-- Witness for C5 at a concrete input: a call stack whose current slot
has `fp = 0x07070707` is returned unchanged by the spec unwind loop. -/
theorem c5_corruption_guard_stops_witness :
    ((⟨0, fun _ => ⟨0x100, 0x07070707⟩⟩ : CallStack).calls
        (⟨0, fun _ => ⟨0x100, 0x07070707⟩⟩ : CallStack).size).fp = 0x07070707
    ∧ unwindSpecLoop (fun _ => ⟨1, 0, 0, 0⟩) (fun _ _ => ⟨0, 0⟩)
        ⟨0, fun _ => ⟨0x100, 0x07070707⟩⟩ = ⟨0, fun _ => ⟨0x100, 0x07070707⟩⟩ :=
  ⟨rfl, c5_corruption_guard_stops _ _ _ rfl⟩

/-- Witness for C7 at a concrete input: `word = 0x7ffffff0` has bit 30
set, so it decodes as offset −16; relocated at 0x100 this gives 0xf0. -/
theorem c7_decode_prel31_matches_spec_witness :
    (0x7ffffff0 : Nat) < 2 ^ 32 ∧ (0x100 : Nat) < 2 ^ 32
    ∧ DecodePrel31 0x7ffffff0 0x100 = prel31Spec 0x7ffffff0 0x100 :=
  ⟨by norm_num, by norm_num,
    c7_decode_prel31_matches_spec 0x7ffffff0 0x100 (by norm_num) (by norm_num)⟩

/-- Witness for the amended C9 at a concrete input: with
`instr_count = 3` (the SU16 count) the loop returns. -/
theorem c9_decode_loop_bounded_witness :
    (3 : Nat) ≤ 254 ∧ (DecodeLoop (fun _ => 0) 0 0 3 3 0 0 0 0).isSome :=
  ⟨by norm_num, c9_decode_loop_bounded (fun _ => 0) 0 0 0 3 (by norm_num)⟩

/-- Witness for C10 at a concrete input: `memMalformed` holds a first
word `0x80000000` (bit 31 set); the decoded function address is 0. -/
theorem c10_bit31_set_yields_fn_zero_witness :
    GetWord memMalformed 0 0 &&& 0x80000000 ≠ 0
    ∧ ((GetExidxEntry memMalformed 0 0).decoded_fn = 0
        ∧ ∀ target, ((GetExidxEntry memMalformed 0 0).decoded_fn < target ↔ 0 < target)) :=
  ⟨by decide, c10_bit31_set_yields_fn_zero memMalformed 0 0 (by decide)⟩

end Fdir
